import Mathlib

/-!
# BufferAllocations

A shallow embedding of `xla/service/gpu/buffer_allocations.cc`: the table that
maps a buffer-allocation index to its device address, the three address
resolution overloads, the mutable accessor and `TearDown`.

Conventions of the embedding.

* `int64_t` values (`BufferAllocation::Index`, slice offset and size) are
  integers; the conversion to `uint64_t` that a mixed comparison or a
  constructor argument performs is `toUInt64`, and the `int64_t` addition
  `offset + size` is taken modulo `2^64` (`wrapInt64`).
* A failed `CHECK` aborts the process; a function that can hit one returns
  `Except CheckFailure _`, the failure naming the check that fired.
* A device pointer is a 64-bit address and `char*` arithmetic on it is taken
  modulo `2^64` (`ptrAdd`); it is exact on a region that lies inside the
  address space.
* Collaborators are explicit: the allocator is a state machine whose answers
  may depend on every earlier call, the command buffer is its address query.
  The calls made to a collaborator are recorded next to the result.
-/

namespace XlaGpu

/-! ## Machine integers -/

/-- Range of a signed 64-bit integer. -/
def isInt64 (x : Int) : Prop := -(2 : Int) ^ 63 ≤ x ∧ x < (2 : Int) ^ 63

instance (x : Int) : Decidable (isInt64 x) := by
  unfold isInt64; exact inferInstance

/-- Conversion of an `int64_t` to `uint64_t`: reduction modulo `2^64`. -/
def toUInt64 (x : Int) : Nat := (x % (2 : Int) ^ 64).toNat

/-- Result of an `int64_t` operation whose exact value is `x`, in two's
complement. -/
def wrapInt64 (x : Int) : Int := (x + (2 : Int) ^ 63) % (2 : Int) ^ 64 - (2 : Int) ^ 63

/-- The `char*` arithmetic `p + offset` on a 64-bit pointer: the address moved
by `offset` bytes, modulo `2^64`. -/
def ptrAdd (p : Int) (offset : Int) : Int := (p + offset) % (2 : Int) ^ 64

/-! ## Statuses and fatal checks -/

/-- Value of `absl::Status`: success, or an error with its code and message. -/
inductive Status where
  | OK : Status
  | Error (code : Nat) (message : String) : Status
deriving DecidableEq, Repr

/-- Method `Status::ok()`. -/
def Status.ok : Status → Bool
  | .OK => true
  | .Error _ _ => false

/-- Value of `absl::StatusOr<T>`: a value or the status explaining its absence. -/
inductive StatusOr (α : Type) where
  | value (v : α) : StatusOr α
  | status (s : Status) : StatusOr α
deriving DecidableEq, Repr

/-- Method `StatusOr::ok()`. -/
def StatusOr.ok {α : Type} : StatusOr α → Bool
  | .value _ => true
  | .status _ => false

/-- The `CHECK`s of the file, each of which aborts the process when it fails. -/
inductive CheckFailure where
  /-- Line 60/67: `CHECK_GE(buffer_index, 0)`. -/
  | index_ge_zero
  /-- Line 61/68: `CHECK_LT(buffer_index, buffers_.size())`. -/
  | index_lt_size
  /-- Line 75/86: `CHECK_LE(buffer_slice.offset(), base.size())`. -/
  | offset_le_size
  /-- Line 76/87: `CHECK_LE(buffer_slice.offset() + buffer_slice.size(), base.size())`. -/
  | end_le_size
  /-- Line 92: `CHECK(cmd_buffer_base.ok())`. -/
  | cmd_buffer_failed
  /-- Line 94: `CHECK(!cmd_buffer_base.value().is_null())`. -/
  | not_yet_allocated
deriving DecidableEq, Repr

deriving instance DecidableEq for Except

/-! ## Data model -/

/-- Modelled from the spec: `se::DeviceMemoryBase` is declared in
`stream_executor/device_memory.h`, which is absent; a device address is a base
pointer (member `opaque_`) and a size in bytes. -/
structure DeviceMemoryBase where
  opaque_ : Int
  size : Nat
deriving DecidableEq, Repr, Inhabited

/-- Modelled from the spec: `DeviceMemoryBase::is_null()` is declared in the
absent header; the null / not-bound address is the one whose pointer is null. -/
def DeviceMemoryBase.is_null (m : DeviceMemoryBase) : Bool := m.opaque_ == 0

/-- Modelled from the spec: `DeviceMemoryBase::is_external_allocation_marker()`
is declared in the absent header; the pending marker is a sentinel bit pattern
on the raw pointer, taken here as the parameter `kExternalAllocationMarker`,
and the marker entry keeps a size of its own. -/
def DeviceMemoryBase.is_external_allocation_marker (kExternalAllocationMarker : Int)
    (m : DeviceMemoryBase) : Bool :=
  m.opaque_ == kExternalAllocationMarker

/-- Modelled from the spec: `BufferAllocation` is declared in
`buffer_assignment.h`, which is absent; the descriptor carries its index, its
size and the two flags read by `TearDown` (`maybe_live_out()` and
`IsPreallocatedTempBuffer()`). -/
structure BufferAllocation where
  index : Int
  size : Int
  maybe_live_out : Bool
  IsPreallocatedTempBuffer : Bool
deriving DecidableEq, Repr

/-- Modelled from the spec: `BufferAllocation::Slice` is declared in the absent
`buffer_assignment.h`; a slice names its allocation, an offset and a size. -/
structure Slice where
  allocation : BufferAllocation
  offset : Int
  size : Int
deriving DecidableEq, Repr

/-- Method `Slice::index()`: the index of the allocation the slice lives in. -/
def Slice.index (s : Slice) : Int := s.allocation.index

/-- The `se::CommandBuffer` collaborator, reduced to the one query made here. -/
structure CommandBuffer where
  GetAllocationAddress : Int → StatusOr DeviceMemoryBase

/-- The `se::DeviceMemoryAllocator` collaborator as a state machine over `σ`:
`Deallocate` answers with a status and moves to the next allocator state. -/
structure DeviceMemoryAllocator (σ : Type) where
  Deallocate : σ → Int → DeviceMemoryBase → Status × σ

/-- Modelled from the spec: the ordering that `std::set<se::DeviceMemoryBase>`
uses is declared in the absent header; `live_addresses.count(a)` is 1 when the
address `a` is in the live-address set and 0 otherwise. -/
def count (live_addresses : List DeviceMemoryBase) (a : DeviceMemoryBase) : Nat :=
  if a ∈ live_addresses then 1 else 0

/-- The members of `BufferAllocations` used by the file. -/
structure BufferAllocations where
  buffers_ : List DeviceMemoryBase
  device_ordinal_ : Int
deriving DecidableEq, Repr

/-! ## Address resolution -/

/-- `GetDeviceAddress(BufferAllocation::Index)`, lines 58-63. After
`CHECK_GE(buffer_index, 0)` the conversion of the index to `size_t` is exact. -/
def BufferAllocations.GetDeviceAddress (t : BufferAllocations) (buffer_index : Int) :
    Except CheckFailure DeviceMemoryBase :=
  if buffer_index < 0 then .error .index_ge_zero
  else if h : buffer_index.toNat < t.buffers_.length then
    .ok (t.buffers_.get ⟨buffer_index.toNat, h⟩)
  else .error .index_lt_size

/-- A reference to one slot of `buffers_`, as `GetMutableDeviceAddress` returns. -/
structure DeviceMemoryBaseRef where
  slot : Nat
deriving DecidableEq, Repr

/-- `GetMutableDeviceAddress`, lines 65-70: same checks, returns the slot. -/
def BufferAllocations.GetMutableDeviceAddress (t : BufferAllocations) (buffer_index : Int) :
    Except CheckFailure DeviceMemoryBaseRef :=
  if buffer_index < 0 then .error .index_ge_zero
  else if buffer_index.toNat < t.buffers_.length then .ok ⟨buffer_index.toNat⟩
  else .error .index_lt_size

/-- Assignment through a reference obtained from `GetMutableDeviceAddress`. -/
def DeviceMemoryBaseRef.assign (r : DeviceMemoryBaseRef) (t : BufferAllocations)
    (a : DeviceMemoryBase) : BufferAllocations :=
  ⟨t.buffers_.set r.slot a, t.device_ordinal_⟩

/-- `GetDeviceAddress(const Slice&)`, lines 72-80. Both `CHECK_LE` compare an
`int64_t` with the `uint64_t` size, so the left side is converted. -/
def BufferAllocations.GetDeviceAddressSlice (t : BufferAllocations) (buffer_slice : Slice) :
    Except CheckFailure DeviceMemoryBase :=
  match t.GetDeviceAddress buffer_slice.index with
  | .error f => .error f
  | .ok base =>
    if ¬ (toUInt64 buffer_slice.offset ≤ base.size) then .error .offset_le_size
    else if ¬ (toUInt64 (wrapInt64 (buffer_slice.offset + buffer_slice.size)) ≤ base.size) then
      .error .end_le_size
    else .ok ⟨ptrAdd base.opaque_ buffer_slice.offset, toUInt64 buffer_slice.size⟩

/-- Outcome of the command-buffer overload with the queries it made. -/
structure Resolution where
  outcome : Except CheckFailure DeviceMemoryBase
  queries : List Int
deriving DecidableEq, Repr

/-- `GetDeviceAddress(const Slice&, const se::CommandBuffer*)`, lines 82-103. -/
def BufferAllocations.GetDeviceAddressCommandBuffer (kExternalAllocationMarker : Int)
    (t : BufferAllocations) (buffer_slice : Slice) (command_buffer : CommandBuffer) :
    Resolution :=
  match t.GetDeviceAddress buffer_slice.index with
  | .error f => ⟨.error f, []⟩
  | .ok base =>
    if ¬ (toUInt64 buffer_slice.offset ≤ base.size) then ⟨.error .offset_le_size, []⟩
    else if ¬ (toUInt64 (wrapInt64 (buffer_slice.offset + buffer_slice.size)) ≤ base.size) then
      ⟨.error .end_le_size, []⟩
    else if base.is_external_allocation_marker kExternalAllocationMarker then
      match command_buffer.GetAllocationAddress buffer_slice.allocation.index with
      | .status _ => ⟨.error .cmd_buffer_failed, [buffer_slice.allocation.index]⟩
      | .value v =>
        if v.is_null then ⟨.error .not_yet_allocated, [buffer_slice.allocation.index]⟩
        else ⟨.ok v, [buffer_slice.allocation.index]⟩
    else ⟨.ok ⟨ptrAdd base.opaque_ buffer_slice.offset, toUInt64 buffer_slice.size⟩, []⟩

/-! ## TearDown -/

/-- One `memory_allocator_->Deallocate` call and the status it answered. -/
structure DeallocateCall where
  device_ordinal : Int
  mem : DeviceMemoryBase
  result : Status
deriving DecidableEq, Repr

/-- What a run of `TearDown` leaves behind: the returned status or the check
that aborted it, the allocator state, the `Deallocate` calls in order, and the
members of the object itself when the run ends. -/
structure TearDownRun (σ : Type) where
  outcome : Except CheckFailure Status
  allocator : σ
  calls : List DeallocateCall
  table : BufferAllocations

/-- The loop of `TearDown`, lines 40-54, over the allocations still to visit;
`status`, `a` and `calls` are the state reached so far. The object `t` goes from
one iteration to the next as it is: the body reads `buffers_` and
`device_ordinal_` and assigns to neither. -/
def BufferAllocations.TearDownLoop {σ : Type} (t : BufferAllocations)
    (memory_allocator_ : DeviceMemoryAllocator σ) (live_addresses : List DeviceMemoryBase) :
    List BufferAllocation → Status → σ → List DeallocateCall → TearDownRun σ
  | [], status, a, calls => ⟨.ok status, a, calls, t⟩
  | allocation :: rest, status, a, calls =>
    match t.GetDeviceAddress allocation.index with
    | .error f => ⟨.error f, a, calls, t⟩
    | .ok buffer_address =>
      if (allocation.maybe_live_out && count live_addresses buffer_address == 0)
          || allocation.IsPreallocatedTempBuffer then
        let dealloc_result := memory_allocator_.Deallocate a t.device_ordinal_ buffer_address
        t.TearDownLoop memory_allocator_ live_addresses rest
          (if !dealloc_result.1.ok && status.ok then dealloc_result.1 else status)
          dealloc_result.2
          (calls ++ [⟨t.device_ordinal_, buffer_address, dealloc_result.1⟩])
      else
        t.TearDownLoop memory_allocator_ live_addresses rest status a calls

/-- `TearDown`, lines 33-56: the loop started from an OK status. -/
def BufferAllocations.TearDown {σ : Type} (t : BufferAllocations)
    (memory_allocator_ : DeviceMemoryAllocator σ) (a : σ)
    (live_addresses : List DeviceMemoryBase) (allocations : List BufferAllocation) :
    TearDownRun σ :=
  t.TearDownLoop memory_allocator_ live_addresses allocations .OK a []

/-! ## Specification-side vocabulary -/

/-- The entry `table[i]` of the claims: the address stored at position `i`. -/
def BufferAllocations.entry (t : BufferAllocations) (i : Int) : DeviceMemoryBase :=
  t.buffers_.getD i.toNat default

/-- The deallocations the claims ask for: `(device_ordinal, table[d.index])`
for the descriptors `d`, in order, with `(d.maybe_live_out and table[d.index]
not in live_addresses) or d.is_temp`. -/
def BufferAllocations.eligibleCalls (t : BufferAllocations)
    (live_addresses : List DeviceMemoryBase) (allocations : List BufferAllocation) :
    List (Int × DeviceMemoryBase) :=
  (allocations.filter (fun d =>
      (d.maybe_live_out && decide (t.entry d.index ∉ live_addresses))
        || d.IsPreallocatedTempBuffer)).map
    (fun d => (t.device_ordinal_, t.entry d.index))

/-- The allocator `A`, started in state `a`, is handed the `Deallocate`
requests of the list one after the other: the requests with the status it
answers to each, and the state it ends in. -/
def DeviceMemoryAllocator.serve {σ : Type} (A : DeviceMemoryAllocator σ) :
    σ → List (Int × DeviceMemoryBase) → List DeallocateCall × σ
  | a, [] => ([], a)
  | a, c :: rest =>
    (⟨c.1, c.2, (A.Deallocate a c.1 c.2).1⟩ :: (A.serve (A.Deallocate a c.1 c.2).2 rest).1,
      (A.serve (A.Deallocate a c.1 c.2).2 rest).2)

/-- The allocator `A` with a journal: it answers as `A` does and appends the
arguments of every `Deallocate` it receives to the journal kept in its state. -/
def recordingAllocator {σ : Type} (A : DeviceMemoryAllocator σ) :
    DeviceMemoryAllocator (σ × List (Int × DeviceMemoryBase)) :=
  ⟨fun st device_ordinal mem =>
    ((A.Deallocate st.1 device_ordinal mem).1,
      ((A.Deallocate st.1 device_ordinal mem).2, st.2 ++ [(device_ordinal, mem)]))⟩

/-- An allocator that counts its calls and fails exactly the calls whose number
(from 0) is in `failing`, answering error code `100 + n` on call `n`. -/
def failingAllocator (failing : List Nat) : DeviceMemoryAllocator Nat :=
  ⟨fun n _ _ => (if n ∈ failing then Status.Error (100 + n) "deallocate failed" else Status.OK,
    n + 1)⟩

/-- The table of the teardown example: three bound entries. -/
def exampleTable : BufferAllocations :=
  ⟨[⟨1000, 100⟩, ⟨2000, 64⟩, ⟨3000, 32⟩], 7⟩

/-- The descriptors of the teardown example: two temp buffers and one
maybe-live-out buffer. -/
def exampleAllocations : List BufferAllocation :=
  [⟨0, 100, false, true⟩, ⟨1, 64, false, true⟩, ⟨2, 32, true, false⟩]

/-- A sentinel pointer value used as the pending marker in the examples. -/
def exampleMarker : Int := 3735928559

/-- A table whose entry 3 is a pending marker carrying size 200. -/
def pendingTable : BufferAllocations :=
  ⟨[⟨1000, 100⟩, ⟨2000, 64⟩, ⟨3000, 32⟩, ⟨exampleMarker, 200⟩], 7⟩

/-- The slice `(allocation 3, offset 10, length 20)` of the examples. -/
def exampleSlice : Slice := ⟨⟨3, 200, false, false⟩, 10, 20⟩

/-- A command buffer that answers `r` for allocation 3 and an error for every
other index. -/
def unitAnswering (r : StatusOr DeviceMemoryBase) : CommandBuffer :=
  ⟨fun i => if i = 3 then r else .status (Status.Error 5 "unknown allocation")⟩

/-- The table of the live-out example: one bound entry of size 50. -/
def liveOutTable : BufferAllocations := ⟨[⟨4000, 50⟩], 7⟩

/-- The descriptor of the live-out example: index 0, size 50, maybe live out. -/
def liveOutAllocations : List BufferAllocation := [⟨0, 50, true, false⟩]

/-- An allocator that fails every call. -/
def refusingAllocator : DeviceMemoryAllocator Nat :=
  ⟨fun n _ _ => (Status.Error 13 "deallocate failed", n + 1)⟩

/-- A table whose single entry has the largest `uint64_t` size. -/
def hugeTable : BufferAllocations := ⟨[⟨1000, 18446744073709551615⟩], 7⟩

/-! ## Lemmas on the table lookup -/

theorem GetDeviceAddress_eq_ok_iff (t : BufferAllocations) (i : Int) (r : DeviceMemoryBase) :
    t.GetDeviceAddress i = .ok r ↔ 0 ≤ i ∧ t.buffers_[i.toNat]? = some r := by
  unfold BufferAllocations.GetDeviceAddress
  by_cases hneg : i < 0
  · simp [hneg]
  · by_cases hlt : i.toNat < t.buffers_.length
    · have hi : 0 ≤ i := by omega
      simp [hneg, hlt, hi, List.getElem?_eq_getElem]
    · have hnone : t.buffers_[i.toNat]? = none := List.getElem?_eq_none (by omega)
      simp [hneg, hlt, hnone]

theorem GetDeviceAddress_error_iff (t : BufferAllocations) (i : Int) :
    (∃ f, t.GetDeviceAddress i = .error f) ↔ i < 0 ∨ (t.buffers_.length : Int) ≤ i := by
  unfold BufferAllocations.GetDeviceAddress
  by_cases hneg : i < 0
  · simp [hneg]
  · by_cases hlt : i.toNat < t.buffers_.length
    · have : ¬ ((t.buffers_.length : Int) ≤ i) := by omega
      simp [hneg, hlt, this]
    · have : (t.buffers_.length : Int) ≤ i := by omega
      simp [hneg, hlt, this]

theorem GetDeviceAddress_in_range (t : BufferAllocations) (i : Int)
    (h0 : 0 ≤ i) (hN : i < t.buffers_.length) :
    t.GetDeviceAddress i = .ok (t.buffers_.getD i.toNat default) := by
  have hlt : i.toNat < t.buffers_.length := by omega
  rw [GetDeviceAddress_eq_ok_iff]
  refine ⟨h0, ?_⟩
  rw [List.getD_eq_getElem?_getD, List.getElem?_eq_getElem hlt]
  rfl

theorem toUInt64_of_nonneg (x : Int) (h0 : 0 ≤ x) (h : x < (2 : Int) ^ 64) :
    toUInt64 x = x.toNat := by
  unfold toUInt64
  rw [Int.emod_eq_of_lt h0 h]

theorem ptrAdd_of_inside (p offset : Int) (h0 : 0 ≤ p + offset)
    (h : p + offset < (2 : Int) ^ 64) : ptrAdd p offset = p + offset := by
  unfold ptrAdd
  exact Int.emod_eq_of_lt h0 h

theorem toUInt64_wrapInt64 (x : Int) : toUInt64 (wrapInt64 x) = toUInt64 x := by
  unfold toUInt64 wrapInt64
  congr 1
  omega

/-! ## Eager slice resolution and the index lookup -/

/-- C3: on a valid allocation index whose entry is `base`, for non-negative
`int64_t` offset and length, `GetDeviceAddress(slice)` returns
`(base.pointer + offset, length)` when `offset + length <= base.size`, the sum
being the pointer arithmetic of the code, which is the exact sum
`base.pointer + offset` whenever the entry lies inside the 64-bit address
space; it hits one of its two bound checks, returning no address, when
`offset + length > base.size`. -/
theorem GetDeviceAddressSlice_in_bound_or_rejected (t : BufferAllocations) (s : Slice)
    (base : DeviceMemoryBase) (hidx : 0 ≤ s.index)
    (hbase : t.buffers_[s.index.toNat]? = some base)
    (hoff : 0 ≤ s.offset) (hlen : 0 ≤ s.size)
    (hoff64 : isInt64 s.offset) (hlen64 : isInt64 s.size) :
    (s.offset + s.size ≤ base.size →
      t.GetDeviceAddressSlice s = .ok ⟨ptrAdd base.opaque_ s.offset, s.size.toNat⟩ ∧
      (0 ≤ base.opaque_ → base.opaque_ + base.size < (2 : Int) ^ 64 →
        t.GetDeviceAddressSlice s = .ok ⟨base.opaque_ + s.offset, s.size.toNat⟩)) ∧
    ((base.size : Int) < s.offset + s.size →
      (t.GetDeviceAddressSlice s = .error .offset_le_size ∨
        t.GetDeviceAddressSlice s = .error .end_le_size) ∧
      ∀ r, t.GetDeviceAddressSlice s ≠ .ok r) := by
  have hget : t.GetDeviceAddress s.index = .ok base :=
    (GetDeviceAddress_eq_ok_iff t s.index base).2 ⟨hidx, hbase⟩
  obtain ⟨-, ho⟩ := hoff64
  obtain ⟨-, hl⟩ := hlen64
  have e1 : toUInt64 s.offset = s.offset.toNat := toUInt64_of_nonneg _ hoff (by omega)
  have e2 : toUInt64 (wrapInt64 (s.offset + s.size)) = (s.offset + s.size).toNat := by
    rw [toUInt64_wrapInt64]
    exact toUInt64_of_nonneg _ (by omega) (by omega)
  have e3 : toUInt64 s.size = s.size.toNat := toUInt64_of_nonneg _ hlen (by omega)
  unfold BufferAllocations.GetDeviceAddressSlice
  rw [hget]
  simp only [e1, e2, e3]
  constructor
  · intro hin
    have h1 : s.offset.toNat ≤ base.size := by omega
    have h2 : (s.offset + s.size).toNat ≤ base.size := by omega
    refine ⟨by simp [h1, h2], ?_⟩
    intro hp hfit
    have hexact : ptrAdd base.opaque_ s.offset = base.opaque_ + s.offset :=
      ptrAdd_of_inside _ _ (by omega) (by omega)
    simp [h1, h2, hexact]
  · intro hout
    have h2 : ¬ (s.offset + s.size).toNat ≤ base.size := by omega
    by_cases h1 : s.offset.toNat ≤ base.size
    · simp [h1, h2]
    · simp [h1]

/-- Witness of C3: a table with one entry `(1000, 100)`; the slice
`(offset 10, length 20)` resolves to `(1010, 20)` and the slice
`(offset 90, length 20)` is rejected. -/
theorem GetDeviceAddressSlice_in_bound_or_rejected_witness :
    (⟨[⟨1000, 100⟩], 0⟩ : BufferAllocations).GetDeviceAddressSlice
        ⟨⟨0, 100, false, true⟩, 10, 20⟩ = .ok ⟨1010, 20⟩ ∧
    ∀ r, (⟨[⟨1000, 100⟩], 0⟩ : BufferAllocations).GetDeviceAddressSlice
        ⟨⟨0, 100, false, true⟩, 90, 20⟩ ≠ .ok r :=
  ⟨((GetDeviceAddressSlice_in_bound_or_rejected ⟨[⟨1000, 100⟩], 0⟩
      ⟨⟨0, 100, false, true⟩, 10, 20⟩ ⟨1000, 100⟩ (by decide) (by decide) (by decide)
      (by decide) (by decide) (by decide)).1 (by decide)).2 (by decide) (by decide),
   ((GetDeviceAddressSlice_in_bound_or_rejected ⟨[⟨1000, 100⟩], 0⟩
      ⟨⟨0, 100, false, true⟩, 90, 20⟩ ⟨1000, 100⟩ (by decide) (by decide) (by decide)
      (by decide) (by decide) (by decide)).2 (by decide)).2⟩

/-- C4: `GetDeviceAddress(index)` on a table of length `N` returns exactly the
entry stored at position `i` when `0 <= i < N`, and hits a bounds check,
returning no address, when `i < 0` or `i >= N`. -/
theorem GetDeviceAddress_bounds_checked_lookup (t : BufferAllocations) (i : Int) :
    (0 ≤ i ∧ i < t.buffers_.length →
      ∃ r, t.GetDeviceAddress i = .ok r ∧ t.buffers_[i.toNat]? = some r) ∧
    (i < 0 ∨ (t.buffers_.length : Int) ≤ i →
      (t.GetDeviceAddress i = .error .index_ge_zero ∨
        t.GetDeviceAddress i = .error .index_lt_size) ∧
      ∀ r, t.GetDeviceAddress i ≠ .ok r) := by
  constructor
  · rintro ⟨h0, hN⟩
    have hlt : i.toNat < t.buffers_.length := by omega
    exact ⟨t.buffers_[i.toNat], (GetDeviceAddress_eq_ok_iff t i _).2
      ⟨h0, List.getElem?_eq_getElem hlt⟩, List.getElem?_eq_getElem hlt⟩
  · intro hout
    unfold BufferAllocations.GetDeviceAddress
    by_cases hneg : i < 0
    · simp [hneg]
    · have hge : ¬ i.toNat < t.buffers_.length := by omega
      simp [hneg, hge]

/-- Witness of C4: in the table `[(1000, 100), (2000, 64)]` index 1 yields
`(2000, 64)`, and index 2 and index -1 yield no address. -/
theorem GetDeviceAddress_bounds_checked_lookup_witness :
    (∃ r, (⟨[⟨1000, 100⟩, ⟨2000, 64⟩], 0⟩ : BufferAllocations).GetDeviceAddress 1 = .ok r ∧
      [(⟨1000, 100⟩ : DeviceMemoryBase), ⟨2000, 64⟩][(1 : Int).toNat]? = some r) ∧
    (∀ r, (⟨[⟨1000, 100⟩, ⟨2000, 64⟩], 0⟩ : BufferAllocations).GetDeviceAddress 2 ≠ .ok r) ∧
    (∀ r, (⟨[⟨1000, 100⟩, ⟨2000, 64⟩], 0⟩ : BufferAllocations).GetDeviceAddress (-1) ≠ .ok r) :=
  ⟨(GetDeviceAddress_bounds_checked_lookup ⟨[⟨1000, 100⟩, ⟨2000, 64⟩], 0⟩ 1).1
      ⟨by decide, by decide⟩,
   ((GetDeviceAddress_bounds_checked_lookup ⟨[⟨1000, 100⟩, ⟨2000, 64⟩], 0⟩ 2).2
      (Or.inr (by decide))).2,
   ((GetDeviceAddress_bounds_checked_lookup ⟨[⟨1000, 100⟩, ⟨2000, 64⟩], 0⟩ (-1)).2
      (Or.inl (by decide))).2⟩

/-! ## Patching an entry -/

theorem assign_GetDeviceAddress_same (t : BufferAllocations) (i : Int) (a : DeviceMemoryBase)
    (h0 : 0 ≤ i) (hN : i < t.buffers_.length) :
    ((⟨i.toNat⟩ : DeviceMemoryBaseRef).assign t a).GetDeviceAddress i = .ok a := by
  have hlt : i.toNat < t.buffers_.length := by omega
  rw [GetDeviceAddress_eq_ok_iff]
  refine ⟨h0, ?_⟩
  simp [DeviceMemoryBaseRef.assign, List.getElem?_set_self hlt]

theorem assign_GetDeviceAddress_other (t : BufferAllocations) (i j : Int) (a : DeviceMemoryBase)
    (h0 : 0 ≤ i) (hne : j ≠ i) :
    ((⟨i.toNat⟩ : DeviceMemoryBaseRef).assign t a).GetDeviceAddress j =
      t.GetDeviceAddress j := by
  unfold BufferAllocations.GetDeviceAddress DeviceMemoryBaseRef.assign
  by_cases hneg : j < 0
  · simp [hneg]
  · have hnat : i.toNat ≠ j.toNat := by omega
    by_cases hlt : j.toNat < t.buffers_.length
    · simp [hneg, hlt, List.getElem_set_ne hnat]
    · simp [hneg, hlt]

/-- C10: on a table of length `N`, for `0 <= i < N`, `GetMutableDeviceAddress(i)`
yields a handle, and after writing `a` through it `GetDeviceAddress(i)` returns
`a`, `GetDeviceAddress(j)` is unchanged for every `j != i` and the length is
still `N`; for `i` outside `[0, N)` it hits a bounds check and yields no handle. -/
theorem GetMutableDeviceAddress_patches_one_entry (t : BufferAllocations) (i : Int)
    (a : DeviceMemoryBase) :
    (0 ≤ i ∧ i < t.buffers_.length →
      ∃ h, t.GetMutableDeviceAddress i = .ok h ∧
        (h.assign t a).GetDeviceAddress i = .ok a ∧
        (∀ j, j ≠ i → (h.assign t a).GetDeviceAddress j = t.GetDeviceAddress j) ∧
        (h.assign t a).buffers_.length = t.buffers_.length) ∧
    (i < 0 ∨ (t.buffers_.length : Int) ≤ i →
      (t.GetMutableDeviceAddress i = .error .index_ge_zero ∨
        t.GetMutableDeviceAddress i = .error .index_lt_size) ∧
      ∀ h, t.GetMutableDeviceAddress i ≠ .ok h) := by
  constructor
  · rintro ⟨h0, hN⟩
    have hlt : i.toNat < t.buffers_.length := by omega
    have hneg : ¬ i < 0 := by omega
    refine ⟨⟨i.toNat⟩, ?_, assign_GetDeviceAddress_same t i a h0 hN,
      fun j hj => assign_GetDeviceAddress_other t i j a h0 hj, ?_⟩
    · simp [BufferAllocations.GetMutableDeviceAddress, hneg, hlt]
    · simp [DeviceMemoryBaseRef.assign]
  · intro hout
    unfold BufferAllocations.GetMutableDeviceAddress
    by_cases hneg : i < 0
    · simp [hneg]
    · have hge : ¬ i.toNat < t.buffers_.length := by omega
      simp [hneg, hge]

/-- Witness of C10: patching index 1 of `[(1000, 100), (57005, 64)]` with
`(3000, 64)`, and asking for a handle on index 2. -/
theorem GetMutableDeviceAddress_patches_one_entry_witness :
    (∃ h, (⟨[⟨1000, 100⟩, ⟨57005, 64⟩], 0⟩ : BufferAllocations).GetMutableDeviceAddress 1 = .ok h ∧
        (h.assign ⟨[⟨1000, 100⟩, ⟨57005, 64⟩], 0⟩ ⟨3000, 64⟩).GetDeviceAddress 1 =
          .ok ⟨3000, 64⟩ ∧
        (∀ j, j ≠ 1 → (h.assign ⟨[⟨1000, 100⟩, ⟨57005, 64⟩], 0⟩ ⟨3000, 64⟩).GetDeviceAddress j =
          (⟨[⟨1000, 100⟩, ⟨57005, 64⟩], 0⟩ : BufferAllocations).GetDeviceAddress j) ∧
        (h.assign ⟨[⟨1000, 100⟩, ⟨57005, 64⟩], 0⟩ ⟨3000, 64⟩).buffers_.length =
          [(⟨1000, 100⟩ : DeviceMemoryBase), ⟨57005, 64⟩].length) ∧
    (∀ h, (⟨[⟨1000, 100⟩, ⟨57005, 64⟩], 0⟩ : BufferAllocations).GetMutableDeviceAddress 2 ≠
      .ok h) :=
  ⟨(GetMutableDeviceAddress_patches_one_entry ⟨[⟨1000, 100⟩, ⟨57005, 64⟩], 0⟩ 1
      ⟨3000, 64⟩).1 ⟨by decide, by decide⟩,
   ((GetMutableDeviceAddress_patches_one_entry ⟨[⟨1000, 100⟩, ⟨57005, 64⟩], 0⟩ 2
      ⟨3000, 64⟩).2 (Or.inr (by decide))).2⟩

/-! ## TearDown -/

theorem TearDownLoop_calls {σ : Type} (t : BufferAllocations)
    (A : DeviceMemoryAllocator σ) (live : List DeviceMemoryBase)
    (descs : List BufferAllocation)
    (hidx : ∀ d ∈ descs, 0 ≤ d.index ∧ d.index < t.buffers_.length)
    (status : Status) (a : σ) (calls : List DeallocateCall) :
    (∃ s, (t.TearDownLoop A live descs status a calls).outcome = .ok s) ∧
    (t.TearDownLoop A live descs status a calls).calls.map (fun c => (c.device_ordinal, c.mem)) =
      calls.map (fun c => (c.device_ordinal, c.mem)) ++
      (descs.filter (fun d => (d.maybe_live_out && decide (t.entry d.index ∉ live))
          || d.IsPreallocatedTempBuffer)).map
        (fun d => (t.device_ordinal_, t.entry d.index)) := by
  induction descs generalizing status a calls with
  | nil => simp [BufferAllocations.TearDownLoop]
  | cons d rest ih =>
    have hd := hidx d (List.mem_cons_self d rest)
    have hrest : ∀ e ∈ rest, 0 ≤ e.index ∧ e.index < t.buffers_.length :=
      fun e he => hidx e (List.mem_cons_of_mem d he)
    have hget : t.GetDeviceAddress d.index = .ok (t.entry d.index) :=
      GetDeviceAddress_in_range t d.index hd.1 hd.2
    unfold BufferAllocations.TearDownLoop
    rw [hget]
    by_cases hmem : t.entry d.index ∈ live
    · cases hl : d.maybe_live_out <;> cases ht : d.IsPreallocatedTempBuffer <;>
        simp [count, hmem, hl, ht, List.filter_cons, ih hrest]
    · cases hl : d.maybe_live_out <;> cases ht : d.IsPreallocatedTempBuffer <;>
        simp [count, hmem, hl, ht, List.filter_cons, ih hrest]

theorem TearDownLoop_serves {σ : Type} (t : BufferAllocations)
    (A : DeviceMemoryAllocator σ) (live : List DeviceMemoryBase)
    (descs : List BufferAllocation)
    (hidx : ∀ d ∈ descs, 0 ≤ d.index ∧ d.index < t.buffers_.length)
    (status : Status) (a : σ) (calls : List DeallocateCall) :
    (t.TearDownLoop A live descs status a calls).calls =
      calls ++ (A.serve a (t.eligibleCalls live descs)).1 ∧
    (t.TearDownLoop A live descs status a calls).allocator =
      (A.serve a (t.eligibleCalls live descs)).2 := by
  induction descs generalizing status a calls with
  | nil => simp [BufferAllocations.TearDownLoop, BufferAllocations.eligibleCalls,
      DeviceMemoryAllocator.serve]
  | cons d rest ih =>
    have hd := hidx d (List.mem_cons_self d rest)
    have hrest : ∀ e ∈ rest, 0 ≤ e.index ∧ e.index < t.buffers_.length :=
      fun e he => hidx e (List.mem_cons_of_mem d he)
    have hget : t.GetDeviceAddress d.index = .ok (t.entry d.index) :=
      GetDeviceAddress_in_range t d.index hd.1 hd.2
    unfold BufferAllocations.TearDownLoop
    rw [hget]
    by_cases hmem : t.entry d.index ∈ live
    · cases hl : d.maybe_live_out <;> cases ht : d.IsPreallocatedTempBuffer <;>
        simp [count, hmem, hl, ht, List.filter_cons, ih hrest,
          BufferAllocations.eligibleCalls, DeviceMemoryAllocator.serve]
    · cases hl : d.maybe_live_out <;> cases ht : d.IsPreallocatedTempBuffer <;>
        simp [count, hmem, hl, ht, List.filter_cons, ih hrest,
          BufferAllocations.eligibleCalls, DeviceMemoryAllocator.serve]

theorem recordingAllocator_serve_journal {σ : Type} (A : DeviceMemoryAllocator σ)
    (requests : List (Int × DeviceMemoryBase)) (a : σ)
    (journal : List (Int × DeviceMemoryBase)) :
    ((recordingAllocator A).serve (a, journal) requests).2.2 = journal ++ requests := by
  induction requests generalizing a journal with
  | nil => simp [DeviceMemoryAllocator.serve]
  | cons c rest ih =>
    simp only [DeviceMemoryAllocator.serve, recordingAllocator]
    have h := ih (A.Deallocate a c.1 c.2).2 (journal ++ [c])
    simp only [recordingAllocator] at h
    rw [h]
    simp

/-- C1: when every descriptor index lies within the table, `TearDown` completes
and, for every allocator and allocator state, the `Deallocate` calls it makes
are, in descriptor order, `(device_ordinal, table[d.index])` for exactly the
descriptors `d` with `(d.maybe_live_out and table[d.index] not in
live_addresses) or d.is_temp`: one call each and no other call. The allocator
is handed exactly these requests, one after the other, each in the state the
previous one left: the answers logged are its answers to them, the state it
ends in is the state after them, and an allocator that keeps a journal of the
arguments it receives ends with exactly this list as its journal. -/
theorem TearDown_deallocates_exactly_eligible {σ : Type} (t : BufferAllocations)
    (A : DeviceMemoryAllocator σ) (a : σ) (live_addresses : List DeviceMemoryBase)
    (allocations : List BufferAllocation)
    (hidx : ∀ d ∈ allocations, 0 ≤ d.index ∧ d.index < t.buffers_.length) :
    (∃ s, (t.TearDown A a live_addresses allocations).outcome = .ok s) ∧
    (t.TearDown A a live_addresses allocations).calls.map (fun c => (c.device_ordinal, c.mem)) =
      (allocations.filter (fun d =>
          (d.maybe_live_out && decide (t.entry d.index ∉ live_addresses))
            || d.IsPreallocatedTempBuffer)).map
        (fun d => (t.device_ordinal_, t.entry d.index)) ∧
    (t.TearDown A a live_addresses allocations).calls =
      (A.serve a (t.eligibleCalls live_addresses allocations)).1 ∧
    (t.TearDown A a live_addresses allocations).allocator =
      (A.serve a (t.eligibleCalls live_addresses allocations)).2 ∧
    (t.TearDown (recordingAllocator A) (a, []) live_addresses allocations).allocator.2 =
      (allocations.filter (fun d =>
          (d.maybe_live_out && decide (t.entry d.index ∉ live_addresses))
            || d.IsPreallocatedTempBuffer)).map
        (fun d => (t.device_ordinal_, t.entry d.index)) := by
  have h := TearDownLoop_calls t A live_addresses allocations hidx .OK a []
  have hs := TearDownLoop_serves t A live_addresses allocations hidx .OK a []
  have hr := TearDownLoop_serves t (recordingAllocator A) live_addresses allocations hidx
    .OK (a, []) []
  refine ⟨h.1, by simpa [BufferAllocations.TearDown] using h.2,
    by simpa [BufferAllocations.TearDown] using hs.1, hs.2, ?_⟩
  unfold BufferAllocations.TearDown
  rw [hr.2, recordingAllocator_serve_journal]
  simp [BufferAllocations.eligibleCalls]

/-- Witness of C1: the teardown example with the deallocation of index 0 made
to fail; the allocator receives entries 0 and 1 and never entry 2 (live). -/
theorem TearDown_deallocates_exactly_eligible_witness :
    (∃ s, (exampleTable.TearDown (failingAllocator [0]) 0 [⟨3000, 32⟩]
        exampleAllocations).outcome = .ok s) ∧
    (exampleTable.TearDown (failingAllocator [0]) 0 [⟨3000, 32⟩]
        exampleAllocations).calls.map (fun c => (c.device_ordinal, c.mem)) =
      [(7, ⟨1000, 100⟩), (7, ⟨2000, 64⟩)] ∧
    (exampleTable.TearDown (failingAllocator [0]) 0 [⟨3000, 32⟩]
        exampleAllocations).allocator = 2 ∧
    (exampleTable.TearDown (recordingAllocator (failingAllocator [0])) (0, []) [⟨3000, 32⟩]
        exampleAllocations).allocator.2 = [(7, ⟨1000, 100⟩), (7, ⟨2000, 64⟩)] :=
  have h := TearDown_deallocates_exactly_eligible exampleTable (failingAllocator [0]) 0
    [⟨3000, 32⟩] exampleAllocations (by decide)
  ⟨h.1, h.2.1, h.2.2.2.1, h.2.2.2.2⟩

theorem GetDeviceAddressCommandBuffer_of_marker (k : Int) (t : BufferAllocations) (s : Slice)
    (cb : CommandBuffer) (base : DeviceMemoryBase)
    (hget : t.GetDeviceAddress s.index = .ok base)
    (hm : base.is_external_allocation_marker k = true)
    (h1 : toUInt64 s.offset ≤ base.size)
    (h2 : toUInt64 (wrapInt64 (s.offset + s.size)) ≤ base.size) :
    t.GetDeviceAddressCommandBuffer k s cb =
      match cb.GetAllocationAddress s.allocation.index with
      | .status _ => ⟨.error .cmd_buffer_failed, [s.allocation.index]⟩
      | .value v =>
        if v.is_null then ⟨.error .not_yet_allocated, [s.allocation.index]⟩
        else ⟨.ok v, [s.allocation.index]⟩ := by
  unfold BufferAllocations.GetDeviceAddressCommandBuffer
  rw [hget]
  simp [h1, h2, hm]

theorem GetDeviceAddressCommandBuffer_of_out_of_bound (k : Int) (t : BufferAllocations)
    (s : Slice) (cb : CommandBuffer) (base : DeviceMemoryBase)
    (hget : t.GetDeviceAddress s.index = .ok base)
    (hout : ¬ (toUInt64 s.offset ≤ base.size ∧
      toUInt64 (wrapInt64 (s.offset + s.size)) ≤ base.size)) :
    t.GetDeviceAddressCommandBuffer k s cb = ⟨.error .offset_le_size, []⟩ ∨
      t.GetDeviceAddressCommandBuffer k s cb = ⟨.error .end_le_size, []⟩ := by
  unfold BufferAllocations.GetDeviceAddressCommandBuffer
  rw [hget]
  by_cases h1 : toUInt64 s.offset ≤ base.size
  · have h2 : ¬ toUInt64 (wrapInt64 (s.offset + s.size)) ≤ base.size := fun h => hout ⟨h1, h⟩
    simp [h1, h2]
  · simp [h1]

theorem GetDeviceAddressCommandBuffer_of_not_marker (k : Int) (t : BufferAllocations)
    (s : Slice) (cb : CommandBuffer)
    (hnm : ∀ base, t.GetDeviceAddress s.index = .ok base →
      base.is_external_allocation_marker k = false) :
    t.GetDeviceAddressCommandBuffer k s cb = ⟨t.GetDeviceAddressSlice s, []⟩ := by
  unfold BufferAllocations.GetDeviceAddressCommandBuffer BufferAllocations.GetDeviceAddressSlice
  cases hget : t.GetDeviceAddress s.index with
  | error f => rfl
  | ok base =>
    have hm := hnm base hget
    by_cases h1 : toUInt64 s.offset ≤ base.size
    · by_cases h2 : toUInt64 (wrapInt64 (s.offset + s.size)) ≤ base.size
      · simp [h1, h2, hm]
      · simp [h1, h2]
    · simp [h1]

/-- C5, the code at the spec's own example: allocation 3 is a pending marker of
size 200, the command buffer reports the bound address `X = (5000, 200)` for
index 3, and the slice is `(3, offset 10, length 20)`. The command buffer is
queried once, with index 3, and the address returned is `X` itself,
`(5000, 200)`: the slice's offset and length are not applied, so the result is
not `(X + 10, 20)`. -/
theorem GetDeviceAddressCommandBuffer_returns_unit_address_unsliced :
    pendingTable.GetDeviceAddressCommandBuffer exampleMarker exampleSlice
        (unitAnswering (.value ⟨5000, 200⟩)) = ⟨.ok ⟨5000, 200⟩, [3]⟩ ∧
    (pendingTable.GetDeviceAddressCommandBuffer exampleMarker exampleSlice
        (unitAnswering (.value ⟨5000, 200⟩))).outcome ≠ .ok ⟨5000 + 10, 20⟩ := by
  decide

/-- Counterexample to C6: with allocation 3 pending and the command buffer
reporting a null address for it, resolving `(3, offset 10, length 20)` does not
hand an error back to the caller: it aborts on `CHECK(!is_null())`. -/
theorem GetDeviceAddressCommandBuffer_not_bound_aborts :
    (pendingTable.GetDeviceAddressCommandBuffer exampleMarker exampleSlice
        (unitAnswering (.value ⟨0, 0⟩))).outcome = .error .not_yet_allocated := by
  decide

/-- C6 amended: on a pending marker entry, when the command buffer's query
succeeds but reports a null address, the resolution returns nothing to the
caller: it aborts on a failed `CHECK` and yields no address, neither the table
entry's nor the command buffer's; when the slice passes the two bound checks
against the marker entry, the command buffer is queried once with the slice's
allocation index and the abort is `CHECK(!is_null())`. -/
theorem GetDeviceAddressCommandBuffer_not_bound_is_fatal (k : Int) (t : BufferAllocations)
    (s : Slice) (cb : CommandBuffer) (base x : DeviceMemoryBase)
    (hget : t.GetDeviceAddress s.index = .ok base)
    (hm : base.is_external_allocation_marker k = true)
    (hq : cb.GetAllocationAddress s.allocation.index = .value x)
    (hnull : x.is_null = true) :
    (∃ f, (t.GetDeviceAddressCommandBuffer k s cb).outcome = .error f) ∧
    (∀ r, (t.GetDeviceAddressCommandBuffer k s cb).outcome ≠ .ok r) ∧
    (toUInt64 s.offset ≤ base.size →
      toUInt64 (wrapInt64 (s.offset + s.size)) ≤ base.size →
      t.GetDeviceAddressCommandBuffer k s cb =
        ⟨.error .not_yet_allocated, [s.allocation.index]⟩) := by
  have key : ∃ f, (t.GetDeviceAddressCommandBuffer k s cb).outcome = .error f := by
    by_cases hb : toUInt64 s.offset ≤ base.size ∧
        toUInt64 (wrapInt64 (s.offset + s.size)) ≤ base.size
    · rw [GetDeviceAddressCommandBuffer_of_marker k t s cb base hget hm hb.1 hb.2, hq]
      simp [hnull]
    · rcases GetDeviceAddressCommandBuffer_of_out_of_bound k t s cb base hget hb with h | h <;>
        rw [h] <;> simp
  refine ⟨key, ?_, ?_⟩
  · obtain ⟨f, hf⟩ := key
    intro r hr
    rw [hf] at hr
    cases hr
  · intro h1 h2
    rw [GetDeviceAddressCommandBuffer_of_marker k t s cb base hget hm h1 h2, hq]
    simp [hnull]

/-- Witness of C6 amended: the pending table, the example slice and a command
buffer reporting the null address for allocation 3. -/
theorem GetDeviceAddressCommandBuffer_not_bound_is_fatal_witness :
    (∃ f, (pendingTable.GetDeviceAddressCommandBuffer exampleMarker exampleSlice
        (unitAnswering (.value ⟨0, 64⟩))).outcome = .error f) ∧
    (∀ r, (pendingTable.GetDeviceAddressCommandBuffer exampleMarker exampleSlice
        (unitAnswering (.value ⟨0, 64⟩))).outcome ≠ .ok r) ∧
    pendingTable.GetDeviceAddressCommandBuffer exampleMarker exampleSlice
        (unitAnswering (.value ⟨0, 64⟩)) = ⟨.error .not_yet_allocated, [3]⟩ :=
  have h := GetDeviceAddressCommandBuffer_not_bound_is_fatal exampleMarker pendingTable
    exampleSlice (unitAnswering (.value ⟨0, 64⟩)) ⟨exampleMarker, 200⟩ ⟨0, 64⟩
    (by decide) (by decide) (by decide) (by decide)
  ⟨h.1, h.2.1, h.2.2 (by decide) (by decide)⟩

/-- Counterexample to C7: with allocation 3 pending and the command buffer's
query failing with error `e`, resolving `(3, offset 10, length 20)` does not
return `e` to the caller: it aborts on `CHECK(cmd_buffer_base.ok())`. -/
theorem GetDeviceAddressCommandBuffer_query_error_aborts :
    (pendingTable.GetDeviceAddressCommandBuffer exampleMarker exampleSlice
        (unitAnswering (.status (Status.Error 13 "query failed")))).outcome =
      .error .cmd_buffer_failed := by
  decide

/-- C7 amended: on a pending marker entry, when the command buffer's
`GetAllocationAddress` returns an error `e`, the resolution does not return `e`:
it aborts on a failed `CHECK` and yields no address; when the slice passes the
two bound checks against the marker entry the abort is
`CHECK(cmd_buffer_base.ok())`, after one query with the slice's allocation
index, and this outcome differs from the one of the not-yet-bound case. -/
theorem GetDeviceAddressCommandBuffer_query_error_is_fatal (k : Int) (t : BufferAllocations)
    (s : Slice) (cb : CommandBuffer) (base : DeviceMemoryBase) (e : Status)
    (hget : t.GetDeviceAddress s.index = .ok base)
    (hm : base.is_external_allocation_marker k = true)
    (hq : cb.GetAllocationAddress s.allocation.index = .status e) :
    (∃ f, (t.GetDeviceAddressCommandBuffer k s cb).outcome = .error f) ∧
    (∀ r, (t.GetDeviceAddressCommandBuffer k s cb).outcome ≠ .ok r) ∧
    (toUInt64 s.offset ≤ base.size →
      toUInt64 (wrapInt64 (s.offset + s.size)) ≤ base.size →
      t.GetDeviceAddressCommandBuffer k s cb =
          ⟨.error .cmd_buffer_failed, [s.allocation.index]⟩ ∧
        ∀ (cb2 : CommandBuffer) (x : DeviceMemoryBase),
          cb2.GetAllocationAddress s.allocation.index = .value x → x.is_null = true →
          (t.GetDeviceAddressCommandBuffer k s cb).outcome ≠
            (t.GetDeviceAddressCommandBuffer k s cb2).outcome) := by
  have key : ∃ f, (t.GetDeviceAddressCommandBuffer k s cb).outcome = .error f := by
    by_cases hb : toUInt64 s.offset ≤ base.size ∧
        toUInt64 (wrapInt64 (s.offset + s.size)) ≤ base.size
    · rw [GetDeviceAddressCommandBuffer_of_marker k t s cb base hget hm hb.1 hb.2, hq]
      simp
    · rcases GetDeviceAddressCommandBuffer_of_out_of_bound k t s cb base hget hb with h | h <;>
        rw [h] <;> simp
  refine ⟨key, ?_, ?_⟩
  · obtain ⟨f, hf⟩ := key
    intro r hr
    rw [hf] at hr
    cases hr
  · intro h1 h2
    have hcb : t.GetDeviceAddressCommandBuffer k s cb =
        ⟨.error .cmd_buffer_failed, [s.allocation.index]⟩ := by
      rw [GetDeviceAddressCommandBuffer_of_marker k t s cb base hget hm h1 h2, hq]
    refine ⟨hcb, ?_⟩
    intro cb2 x hq2 hnull
    rw [hcb, GetDeviceAddressCommandBuffer_of_marker k t s cb2 base hget hm h1 h2, hq2]
    simp [hnull]

/-- Witness of C7 amended: the pending table, the example slice and a command
buffer whose query fails; a second command buffer reports the null address. -/
theorem GetDeviceAddressCommandBuffer_query_error_is_fatal_witness :
    pendingTable.GetDeviceAddressCommandBuffer exampleMarker exampleSlice
        (unitAnswering (.status (Status.Error 13 "query failed"))) =
      ⟨.error .cmd_buffer_failed, [3]⟩ ∧
    (pendingTable.GetDeviceAddressCommandBuffer exampleMarker exampleSlice
        (unitAnswering (.status (Status.Error 13 "query failed")))).outcome ≠
      (pendingTable.GetDeviceAddressCommandBuffer exampleMarker exampleSlice
        (unitAnswering (.value ⟨0, 64⟩))).outcome :=
  have h := (GetDeviceAddressCommandBuffer_query_error_is_fatal exampleMarker pendingTable
    exampleSlice (unitAnswering (.status (Status.Error 13 "query failed")))
    ⟨exampleMarker, 200⟩ (Status.Error 13 "query failed")
    (by decide) (by decide) (by decide)).2.2 (by decide) (by decide)
  ⟨h.1, h.2 (unitAnswering (.value ⟨0, 64⟩)) ⟨0, 64⟩ (by decide) (by decide)⟩

/-- Counterexample to C8: the marker entry of allocation 3 has size 200 and the
command buffer reports `X = (5000, 8)`; for the slice `(offset 10, length 20)`
one has `offset + length > size(X)`, yet the resolution succeeds. -/
theorem GetDeviceAddressCommandBuffer_unit_size_unchecked :
    (⟨5000, 8⟩ : DeviceMemoryBase).size < exampleSlice.offset + exampleSlice.size ∧
    (pendingTable.GetDeviceAddressCommandBuffer exampleMarker exampleSlice
        (unitAnswering (.value ⟨5000, 8⟩))).outcome = .ok ⟨5000, 8⟩ := by
  decide

/-- C8 amended: in the command-buffer path the bound check is applied to the
pending table entry, not to the address the command buffer reports: on a
pending marker entry `base`, with the command buffer reporting a non-null
address for the slice's allocation index, and non-negative `int64_t` offset and
length, the resolution succeeds if and only if
`offset + length <= base.size`, whatever the size of the reported address; when
`offset + length > base.size` it hits one of the two bound checks. -/
theorem GetDeviceAddressCommandBuffer_bound_check_on_table_entry (k : Int)
    (t : BufferAllocations) (s : Slice) (cb : CommandBuffer) (base x : DeviceMemoryBase)
    (hget : t.GetDeviceAddress s.index = .ok base)
    (hm : base.is_external_allocation_marker k = true)
    (hq : cb.GetAllocationAddress s.allocation.index = .value x)
    (hbound : x.is_null = false)
    (hoff : 0 ≤ s.offset) (hlen : 0 ≤ s.size)
    (hoff64 : isInt64 s.offset) (hlen64 : isInt64 s.size) :
    ((∃ r, (t.GetDeviceAddressCommandBuffer k s cb).outcome = .ok r) ↔
      s.offset + s.size ≤ base.size) ∧
    ((base.size : Int) < s.offset + s.size →
      (t.GetDeviceAddressCommandBuffer k s cb).outcome = .error .offset_le_size ∨
        (t.GetDeviceAddressCommandBuffer k s cb).outcome = .error .end_le_size) := by
  obtain ⟨-, ho⟩ := hoff64
  obtain ⟨-, hl⟩ := hlen64
  have e1 : toUInt64 s.offset = s.offset.toNat := toUInt64_of_nonneg _ hoff (by omega)
  have e2 : toUInt64 (wrapInt64 (s.offset + s.size)) = (s.offset + s.size).toNat := by
    rw [toUInt64_wrapInt64]
    exact toUInt64_of_nonneg _ (by omega) (by omega)
  have hfail : (base.size : Int) < s.offset + s.size →
      (t.GetDeviceAddressCommandBuffer k s cb).outcome = .error .offset_le_size ∨
        (t.GetDeviceAddressCommandBuffer k s cb).outcome = .error .end_le_size := by
    intro hout
    have hb : ¬ (toUInt64 s.offset ≤ base.size ∧
        toUInt64 (wrapInt64 (s.offset + s.size)) ≤ base.size) := by
      rw [e1, e2]; omega
    rcases GetDeviceAddressCommandBuffer_of_out_of_bound k t s cb base hget hb with h | h
    · exact Or.inl (by rw [h])
    · exact Or.inr (by rw [h])
  refine ⟨⟨?_, ?_⟩, hfail⟩
  · rintro ⟨r, hr⟩
    by_contra hnot
    rcases hfail (by omega) with h | h <;> rw [h] at hr <;> cases hr
  · intro hin
    have h1 : toUInt64 s.offset ≤ base.size := by rw [e1]; omega
    have h2 : toUInt64 (wrapInt64 (s.offset + s.size)) ≤ base.size := by rw [e2]; omega
    rw [GetDeviceAddressCommandBuffer_of_marker k t s cb base hget hm h1 h2, hq]
    exact ⟨x, by simp [hbound]⟩

/-- Witness of C8 amended: the marker entry has size 200 and the command buffer
reports an address of size 8; the slice `(offset 10, length 20)` resolves. -/
theorem GetDeviceAddressCommandBuffer_bound_check_on_table_entry_witness :
    ∃ r, (pendingTable.GetDeviceAddressCommandBuffer exampleMarker exampleSlice
        (unitAnswering (.value ⟨6000, 8⟩))).outcome = .ok r :=
  (GetDeviceAddressCommandBuffer_bound_check_on_table_entry exampleMarker pendingTable
    exampleSlice (unitAnswering (.value ⟨6000, 8⟩)) ⟨exampleMarker, 200⟩ ⟨6000, 8⟩
    (by decide) (by decide) (by decide) (by decide) (by decide) (by decide)
    (by decide) (by decide)).1.2 (by decide)

/-- C9: when the base entry of the slice is not a pending marker, the
command-buffer overload has the same outcome as the eager overload (the same
address or the same failed check) and makes no `GetAllocationAddress` call,
whatever the command buffer would answer. -/
theorem GetDeviceAddressCommandBuffer_bound_entry_eq_eager (k : Int) (t : BufferAllocations)
    (s : Slice) (cb : CommandBuffer)
    (hnm : ∀ base, t.GetDeviceAddress s.index = .ok base →
      base.is_external_allocation_marker k = false) :
    (t.GetDeviceAddressCommandBuffer k s cb).outcome = t.GetDeviceAddressSlice s ∧
    (t.GetDeviceAddressCommandBuffer k s cb).queries = [] := by
  rw [GetDeviceAddressCommandBuffer_of_not_marker k t s cb hnm]
  exact ⟨rfl, rfl⟩

/-- Witness of C9: allocation 1 of the pending table is bound to `(2000, 64)`;
with a command buffer whose every query fails, the slice
`(1, offset 8, length 16)` resolves to `(2008, 16)` and no query is made. -/
theorem GetDeviceAddressCommandBuffer_bound_entry_eq_eager_witness :
    (pendingTable.GetDeviceAddressCommandBuffer exampleMarker ⟨⟨1, 64, false, true⟩, 8, 16⟩
        ⟨fun _ => .status (Status.Error 13 "query failed")⟩).outcome =
      pendingTable.GetDeviceAddressSlice ⟨⟨1, 64, false, true⟩, 8, 16⟩ ∧
    pendingTable.GetDeviceAddressSlice ⟨⟨1, 64, false, true⟩, 8, 16⟩ = .ok ⟨2008, 16⟩ ∧
    (pendingTable.GetDeviceAddressCommandBuffer exampleMarker ⟨⟨1, 64, false, true⟩, 8, 16⟩
        ⟨fun _ => .status (Status.Error 13 "query failed")⟩).queries = [] :=
  have h := GetDeviceAddressCommandBuffer_bound_entry_eq_eager exampleMarker pendingTable
    ⟨⟨1, 64, false, true⟩, 8, 16⟩ ⟨fun _ => .status (Status.Error 13 "query failed")⟩
    (by
      intro base hb
      have : base = ⟨2000, 64⟩ := by
        have h2 : pendingTable.GetDeviceAddress (1 : Int) = .ok ⟨2000, 64⟩ := by decide
        have h3 : (⟨⟨1, 64, false, true⟩, 8, 16⟩ : Slice).index = 1 := rfl
        rw [h3, h2] at hb
        cases hb
        rfl
      rw [this]
      decide)
  ⟨h.1, by decide, h.2⟩

/-! ## TearDown: retained outputs, completion and the table -/

theorem TearDownLoop_nothing_eligible {σ : Type} (t : BufferAllocations)
    (A : DeviceMemoryAllocator σ) (live : List DeviceMemoryBase)
    (descs : List BufferAllocation)
    (hidx : ∀ d ∈ descs, 0 ≤ d.index ∧ d.index < t.buffers_.length)
    (htemp : ∀ d ∈ descs, d.IsPreallocatedTempBuffer = false)
    (hlive : ∀ d ∈ descs, d.maybe_live_out = true → t.entry d.index ∈ live)
    (status : Status) (a : σ) (calls : List DeallocateCall) :
    t.TearDownLoop A live descs status a calls = ⟨.ok status, a, calls, t⟩ := by
  induction descs with
  | nil => rfl
  | cons d rest ih =>
    have hd := hidx d (List.mem_cons_self d rest)
    have hget : t.GetDeviceAddress d.index = .ok (t.entry d.index) :=
      GetDeviceAddress_in_range t d.index hd.1 hd.2
    have ht := htemp d (List.mem_cons_self d rest)
    have hl := hlive d (List.mem_cons_self d rest)
    unfold BufferAllocations.TearDownLoop
    rw [hget]
    have hcond : ((d.maybe_live_out && count live (t.entry d.index) == 0)
        || d.IsPreallocatedTempBuffer) = false := by
      cases hmlo : d.maybe_live_out
      · simp [ht]
      · simp [ht, count, hl hmlo]
    simp only [hcond, Bool.false_eq_true, if_false]
    exact ih (fun e he => hidx e (List.mem_cons_of_mem d he))
      (fun e he => htemp e (List.mem_cons_of_mem d he))
      (fun e he => hlive e (List.mem_cons_of_mem d he))

theorem TearDownLoop_completes_iff {σ : Type} (t : BufferAllocations)
    (A : DeviceMemoryAllocator σ) (live : List DeviceMemoryBase)
    (descs : List BufferAllocation) (status : Status) (a : σ) (calls : List DeallocateCall) :
    (∃ s, (t.TearDownLoop A live descs status a calls).outcome = .ok s) ↔
      ∀ d ∈ descs, 0 ≤ d.index ∧ d.index < t.buffers_.length := by
  constructor
  · intro hdone
    induction descs generalizing status a calls with
    | nil => intro d hd; cases hd
    | cons d rest ih =>
      unfold BufferAllocations.TearDownLoop at hdone
      cases hget : t.GetDeviceAddress d.index with
      | error f =>
        rw [hget] at hdone
        obtain ⟨s, hs⟩ := hdone
        cases hs
      | ok addr =>
        rw [hget] at hdone
        have hin : 0 ≤ d.index ∧ d.index < t.buffers_.length := by
          obtain ⟨h0, hsome⟩ := (GetDeviceAddress_eq_ok_iff t d.index addr).1 hget
          have hlt : d.index.toNat < t.buffers_.length := by
            by_contra hge
            rw [List.getElem?_eq_none (by omega)] at hsome
            cases hsome
          omega
        have hrest : ∀ e ∈ rest, 0 ≤ e.index ∧ e.index < t.buffers_.length := by
          simp only at hdone
          split at hdone
          · exact ih _ _ _ hdone
          · exact ih _ _ _ hdone
        intro e he
        rcases List.mem_cons.1 he with h | h
        · rw [h]; exact hin
        · exact hrest e h
  · intro hidx
    exact (TearDownLoop_calls t A live descs hidx status a calls).1

theorem TearDownLoop_table {σ : Type} (t : BufferAllocations)
    (A : DeviceMemoryAllocator σ) (live : List DeviceMemoryBase)
    (descs : List BufferAllocation) (status : Status) (a : σ) (calls : List DeallocateCall) :
    (t.TearDownLoop A live descs status a calls).table = t := by
  induction descs generalizing status a calls with
  | nil => rfl
  | cons d rest ih =>
    unfold BufferAllocations.TearDownLoop
    cases hget : t.GetDeviceAddress d.index with
    | error f => rfl
    | ok addr =>
      simp only
      split
      · exact ih _ _ _
      · exact ih _ _ _

theorem TearDownLoop_error_kind {σ : Type} (t : BufferAllocations)
    (A : DeviceMemoryAllocator σ) (live : List DeviceMemoryBase)
    (descs : List BufferAllocation) (status : Status) (a : σ) (calls : List DeallocateCall)
    (f : CheckFailure)
    (hfail : (t.TearDownLoop A live descs status a calls).outcome = .error f) :
    f = .index_ge_zero ∨ f = .index_lt_size := by
  induction descs generalizing status a calls with
  | nil => simp [BufferAllocations.TearDownLoop] at hfail
  | cons d rest ih =>
    unfold BufferAllocations.TearDownLoop at hfail
    cases hget : t.GetDeviceAddress d.index with
    | error g =>
      rw [hget] at hfail
      simp only [Except.error.injEq] at hfail
      rw [← hfail]
      unfold BufferAllocations.GetDeviceAddress at hget
      by_cases hneg : d.index < 0
      · simp [hneg] at hget
        exact Or.inl hget.symm
      · by_cases hlt : d.index.toNat < t.buffers_.length
        · simp [hneg, hlt] at hget
        · simp [hneg, hlt] at hget
          exact Or.inr hget.symm
    | ok addr =>
      rw [hget] at hfail
      simp only at hfail
      split at hfail
      · exact ih _ _ _ hfail
      · exact ih _ _ _ hfail

/-- C11: when every descriptor index lies within the table, no descriptor is a
temp buffer and the current address of every maybe-live-out descriptor is in
`live_addresses`, `TearDown` makes no `Deallocate` call at all, returns OK and
leaves the allocator in the state it was given, whatever the allocator would
have answered. -/
theorem TearDown_retains_live_outputs {σ : Type} (t : BufferAllocations)
    (A : DeviceMemoryAllocator σ) (a : σ) (live_addresses : List DeviceMemoryBase)
    (allocations : List BufferAllocation)
    (hidx : ∀ d ∈ allocations, 0 ≤ d.index ∧ d.index < t.buffers_.length)
    (htemp : ∀ d ∈ allocations, d.IsPreallocatedTempBuffer = false)
    (hlive : ∀ d ∈ allocations, d.maybe_live_out = true → t.entry d.index ∈ live_addresses) :
    (t.TearDown A a live_addresses allocations).calls = [] ∧
    (t.TearDown A a live_addresses allocations).outcome = .ok .OK ∧
    (t.TearDown A a live_addresses allocations).allocator = a := by
  unfold BufferAllocations.TearDown
  rw [TearDownLoop_nothing_eligible t A live_addresses allocations hidx htemp hlive]
  exact ⟨rfl, rfl, rfl⟩

/-- Witness of C11: one descriptor `(0, size 50, live out)` whose address is in
the live set, with an allocator that would fail every call. -/
theorem TearDown_retains_live_outputs_witness :
    (liveOutTable.TearDown refusingAllocator 0 [⟨4000, 50⟩] liveOutAllocations).calls = [] ∧
    (liveOutTable.TearDown refusingAllocator 0 [⟨4000, 50⟩] liveOutAllocations).outcome =
      .ok .OK ∧
    (liveOutTable.TearDown refusingAllocator 0 [⟨4000, 50⟩] liveOutAllocations).allocator = 0 :=
  TearDown_retains_live_outputs liveOutTable refusingAllocator 0 [⟨4000, 50⟩]
    liveOutAllocations (by decide) (by decide) (by decide)

/-- C13: on a table of length `N`, `TearDown` returns a status if and only if
every descriptor `d` has `0 <= d.index < N`; a descriptor with an out-of-range
index, whatever its flags (so also one that is neither temp nor maybe live
out), makes `TearDown` abort on one of the two index checks of the lookup. -/
theorem TearDown_completes_iff_indices_in_range {σ : Type} (t : BufferAllocations)
    (A : DeviceMemoryAllocator σ) (a : σ) (live_addresses : List DeviceMemoryBase)
    (allocations : List BufferAllocation) :
    ((∃ s, (t.TearDown A a live_addresses allocations).outcome = .ok s) ↔
      ∀ d ∈ allocations, 0 ≤ d.index ∧ d.index < t.buffers_.length) ∧
    (∀ d ∈ allocations, d.index < 0 ∨ (t.buffers_.length : Int) ≤ d.index →
      (t.TearDown A a live_addresses allocations).outcome = .error .index_ge_zero ∨
        (t.TearDown A a live_addresses allocations).outcome = .error .index_lt_size) := by
  unfold BufferAllocations.TearDown
  have hiff := TearDownLoop_completes_iff t A live_addresses allocations .OK a []
  refine ⟨hiff, ?_⟩
  intro d hd hout
  cases hres : (t.TearDownLoop A live_addresses allocations .OK a []).outcome with
  | ok s =>
    have hin := hiff.1 ⟨s, hres⟩ d hd
    omega
  | error f =>
    rcases TearDownLoop_error_kind t A live_addresses allocations .OK a [] f hres with h | h
    · exact Or.inl (by rw [h])
    · exact Or.inr (by rw [h])

/-- Witness of C13: the three-entry example table with a second descriptor of
index 5 that is neither temp nor maybe live out; the run aborts. -/
theorem TearDown_completes_iff_indices_in_range_witness :
    (exampleTable.TearDown (failingAllocator []) 0 []
        [⟨0, 100, false, true⟩, ⟨5, 8, false, false⟩]).outcome = .error .index_ge_zero ∨
    (exampleTable.TearDown (failingAllocator []) 0 []
        [⟨0, 100, false, true⟩, ⟨5, 8, false, false⟩]).outcome = .error .index_lt_size :=
  (TearDown_completes_iff_indices_in_range exampleTable (failingAllocator []) 0 []
    [⟨0, 100, false, true⟩, ⟨5, 8, false, false⟩]).2 ⟨5, 8, false, false⟩
    (by decide) (Or.inr (by decide))

/-- C14: whenever `TearDown` completes, with an OK status or with a failure, the
table is the one it started from: same length, same entries, and
`GetDeviceAddress(i)` answers after the run what it answered before. -/
theorem TearDown_leaves_table_untouched {σ : Type} (t : BufferAllocations)
    (A : DeviceMemoryAllocator σ) (a : σ) (live_addresses : List DeviceMemoryBase)
    (allocations : List BufferAllocation) (s : Status)
    (_hdone : (t.TearDown A a live_addresses allocations).outcome = .ok s) :
    (t.TearDown A a live_addresses allocations).table.buffers_.length = t.buffers_.length ∧
    (t.TearDown A a live_addresses allocations).table.buffers_ = t.buffers_ ∧
    (∀ i, (t.TearDown A a live_addresses allocations).table.GetDeviceAddress i =
      t.GetDeviceAddress i) := by
  have htab : (t.TearDown A a live_addresses allocations).table = t :=
    TearDownLoop_table t A live_addresses allocations .OK a []
  rw [htab]
  exact ⟨rfl, rfl, fun _ => rfl⟩

/-- Witness of C14: the teardown example with the deallocation of index 0
failing; the run returns that failure and the table is as before. -/
theorem TearDown_leaves_table_untouched_witness :
    (exampleTable.TearDown (failingAllocator [0]) 0 [⟨3000, 32⟩]
        exampleAllocations).outcome = .ok (Status.Error 100 "deallocate failed") ∧
    (exampleTable.TearDown (failingAllocator [0]) 0 [⟨3000, 32⟩]
        exampleAllocations).table.buffers_ = exampleTable.buffers_ ∧
    (∀ i, (exampleTable.TearDown (failingAllocator [0]) 0 [⟨3000, 32⟩]
        exampleAllocations).table.GetDeviceAddress i = exampleTable.GetDeviceAddress i) :=
  have h := TearDown_leaves_table_untouched exampleTable (failingAllocator [0]) 0
    [⟨3000, 32⟩] exampleAllocations (Status.Error 100 "deallocate failed") rfl
  ⟨rfl, h.2.1, h.2.2⟩

/-! ## Eager slice resolution on all 64-bit inputs -/

/-- C12, the code at two signed 64-bit inputs. On the entry `(1000, 100)` the
slice `(offset 10, length -5)` passes both checks (`10 <= 100` and
`5 <= 100`) and the address returned is `(1010, 2^64 - 5)`: its unsigned size
reaches far beyond the 100 bytes of the allocation. On an entry of size
`2^64 - 1` the slice `(offset -1, length 1)` passes both checks, its offset
being compared as `2^64 - 1`, and the address returned is `(999, 1)`, the byte
before the entry. -/
theorem GetDeviceAddressSlice_escapes_allocation :
    (isInt64 10 ∧ isInt64 (-5) ∧
      (⟨[⟨1000, 100⟩], 0⟩ : BufferAllocations).GetDeviceAddressSlice
        ⟨⟨0, 100, false, true⟩, 10, -5⟩ = .ok ⟨1010, 18446744073709551611⟩ ∧
      ¬ ((10 : Int) + (18446744073709551611 : Nat) ≤ (100 : Nat))) ∧
    (isInt64 (-1) ∧ isInt64 1 ∧
      hugeTable.GetDeviceAddressSlice ⟨⟨0, 100, false, true⟩, -1, 1⟩ = .ok ⟨999, 1⟩ ∧
      ¬ (0 ≤ (-1 : Int))) := by
  decide

end XlaGpu
